import Mathlib

/-!
Verification of the Taller task-manager repository.

This file gives a shallow embedding, in Lean 4, of the parts of the
repository that the specification's testable properties talk about:

* the statistics engine of `src/assets/js/user-profile.ts`
  (`calculateProductivityScore`, `calculateStreakDays`);
* the reminder scheduler and notification feed of
  `src/assets/js/notifications.ts` (`scheduleReminder`, `cancelReminder`,
  `snoozeReminder`, `addNotification`, `createTaskCompletedNotification`);
* the task CRUD, activity log and CSV import/export of the main
  application file (`addTask`, `toggleTask`, `editTaskTitle`,
  `addActivity`, `exportToCSV`, `importFromCSV`).

Modelling conventions:

* instants are epoch milliseconds as `Int`; `now` parameters stand for
  `Date.now()`; the local time zone is modelled with offset 0 and no DST,
  so a local midnight is a multiple of 86400000;
* random id generation (`uid()`, `generateId`) is determinized: fresh ids
  are explicit parameters or drawn from a counter carried in the state;
* JavaScript number arithmetic in the productivity score is embedded as
  exact rational arithmetic (`Rat`); `Math.round` becomes `jsRound`;
* JavaScript string methods used by the CSV code (`split`, `replace` with
  the concrete regexes of the source, `trim`, `toLowerCase`, `includes`,
  `join`) are re-implemented structurally over `List Char` so that the
  kernel can evaluate them; all separators/patterns in the source are
  single characters;
* DOM rendering, persistence mirroring (`saveTasks`, localStorage) and
  console logging are identity effects on the modelled state and are
  omitted; user-facing messages (`showError`, `showToast`) are recorded
  in explicit `errors`/`toasts` fields.
-/

namespace Taller

/-- Whitespace test backing the embedding of JavaScript `trim`. -/
def jsIsWhitespace (c : Char) : Bool :=
  c = ' ' || c = '\t' || c = '\n' || c = '\r'

def trimChars (cs : List Char) : List Char :=
  ((cs.dropWhile jsIsWhitespace).reverse.dropWhile jsIsWhitespace).reverse

/-- Embedding of JavaScript `s.trim()`. -/
def jsTrim (s : String) : String :=
  String.mk (trimChars s.toList)

def splitAux (sep : Char) : List Char → List Char → List String
  | [], cur => [String.mk cur.reverse]
  | c :: cs, cur =>
    if c = sep then String.mk cur.reverse :: splitAux sep cs []
    else splitAux sep cs (c :: cur)

/-- Embedding of JavaScript `s.split(sep)` for a one-character separator
(the source only splits on `','`, `'\n'` and `';'`). -/
def jsSplit (sep : Char) (s : String) : List String :=
  splitAux sep s.toList []

def replaceCharAux (pat : Char) (rep : List Char) : List Char → List Char
  | [] => []
  | c :: cs =>
    if c = pat then rep ++ replaceCharAux pat rep cs
    else c :: replaceCharAux pat rep cs

/-- Embedding of JavaScript `s.replace(/pat/g, rep)` for a one-character
pattern (the source only replaces the double-quote character). -/
def jsReplaceChar (pat : Char) (rep : String) (s : String) : String :=
  String.mk (replaceCharAux pat rep.toList s.toList)

/-- Embedding of `v.replace(/^"|"$/g, '')` from `importFromCSV`: removes one
leading and one trailing double quote, nothing else. -/
def stripEdgeQuotes (s : String) : String :=
  let cs := s.toList
  let cs1 := match cs with
    | '"' :: rest => rest
    | l => l
  let cs2 := match cs1.reverse with
    | '"' :: rest => rest.reverse
    | _ => cs1
  String.mk cs2

def asciiLower (c : Char) : Char :=
  if 65 ≤ c.toNat ∧ c.toNat ≤ 90 then Char.ofNat (c.toNat + 32) else c

/-- Embedding of JavaScript `s.toLowerCase()` on the ASCII range (the source
only lowercases the CSV state column, whose relevant values are ASCII). -/
def jsToLower (s : String) : String :=
  String.mk (s.toList.map asciiLower)

def startsWithChars : List Char → List Char → Bool
  | [], _ => true
  | _ :: _, [] => false
  | p :: ps, c :: cs => p = c && startsWithChars ps cs

def containsChars (pat : List Char) : List Char → Bool
  | [] => startsWithChars pat []
  | c :: cs => startsWithChars pat (c :: cs) || containsChars pat cs

/-- Embedding of JavaScript `s.includes(pat)`. -/
def jsIncludes (pat : String) (s : String) : Bool :=
  containsChars pat.toList s.toList

/-- Embedding of JavaScript `array.join(sep)`. -/
def jsJoin (sep : String) : List String → String
  | [] => ""
  | [x] => x
  | x :: xs => x ++ sep ++ jsJoin sep xs

/-! ## Statistics engine (src/assets/js/user-profile.ts) -/

/-- A task as consumed by the statistics methods of `UserProfileService`
(they read the `done`, `createdAt` and `completedAt` fields of the raw task
array; an absent `completedAt` is `none`). -/
structure PTask where
  done : Bool
  createdAt : Int
  completedAt : Option Int
deriving DecidableEq

/-- JavaScript truthiness of the optional numeric `completedAt` field
(`undefined` and `0` are falsy). -/
def numTruthy : Option Int → Bool
  | none => false
  | some v => v != 0

def msPerDay : Int := 86400000

def weekMs : Int := 7 * 24 * 60 * 60 * 1000

/-- Embedding of `Math.round` on the exact rational value of its argument
(JavaScript rounds halves toward positive infinity). -/
def jsRound (q : Rat) : Int := ⌊q + (1 : Rat) / 2⌋

/-- Embedding of `UserProfileService.calculateProductivityScore`
(src/assets/js/user-profile.ts, lines 533-557). -/
def calculateProductivityScore (now : Int) (tasks : List PTask) : Int :=
  if tasks.length = 0 then 0
  else
    let completedTasks : Int := ((tasks.filter (fun t => t.done)).length : Int)
    let totalTasks : Int := (tasks.length : Int)
    let completionRate : Rat := ((completedTasks : Rat) / (totalTasks : Rat)) * 100
    let recentActivity : Int :=
      ((tasks.filter (fun t => decide (now - weekMs < t.createdAt))).length : Int)
    let recentCompletion : Int :=
      ((tasks.filter (fun t =>
        numTruthy t.completedAt && decide (now - weekMs < t.completedAt.getD 0))).length : Int)
    min 100 (jsRound (completionRate * (6 / 10)
      + min ((recentActivity : Rat) * 5) 30
      + min ((recentCompletion : Rat) * 10) 10))

/-- Local-midnight floor of an epoch-millisecond instant: the embedding of
`new Date(t).setHours(0, 0, 0, 0)` under the fixed offset-0 locale. -/
def dayFloor (t : Int) : Int := msPerDay * (Int.fdiv t msPerDay)

def completedAtD (t : PTask) : Int := t.completedAt.getD 0

def insertByCompletedDesc (t : PTask) : List PTask → List PTask
  | [] => [t]
  | h :: rest =>
    if completedAtD h ≤ completedAtD t then t :: h :: rest
    else h :: insertByCompletedDesc t rest

/-- Embedding of `tasks.sort((a, b) => b.completedAt - a.completedAt)`:
sorts by completion instant, descending. -/
def sortByCompletedDesc (l : List PTask) : List PTask :=
  l.foldr insertByCompletedDesc []

/-- The `for (const task of completedTasks)` loop of `calculateStreakDays`:
`cur` is `currentDate` (always a local midnight) and `streak` the counter;
`diffDays` is `Math.floor((currentDate - taskDate) / 86400000)`. -/
def streakLoop : List PTask → Int → Int → Int
  | [], _, streak => streak
  | t :: rest, cur, streak =>
    let taskDate := dayFloor (completedAtD t)
    let diffDays := Int.fdiv (cur - taskDate) msPerDay
    if diffDays = streak then streakLoop rest (cur - msPerDay) (streak + 1)
    else if streak < diffDays then streak
    else streakLoop rest cur streak

/-- Embedding of `UserProfileService.calculateStreakDays`
(src/assets/js/user-profile.ts, lines 562-590). -/
def calculateStreakDays (now : Int) (tasks : List PTask) : Int :=
  if tasks.length = 0 then 0
  else
    let completedTasks := sortByCompletedDesc (tasks.filter (fun t => numTruthy t.completedAt))
    if completedTasks.length = 0 then 0
    else streakLoop completedTasks (dayFloor now) 0

/-- The task list of claim C1: one task completed today (day 10 of the
model clock), one completed yesterday (day 9), one completed three days
ago (day 7), nothing on day 8. -/
def streakTasks : List PTask :=
  [ { done := true, createdAt := 0, completedAt := some (10 * msPerDay + 3600000) },
    { done := true, createdAt := 0, completedAt := some (9 * msPerDay + 1000) },
    { done := true, createdAt := 0, completedAt := some (7 * msPerDay + 500) } ]

def streakNow : Int := 10 * msPerDay + 7200000

/-! ## Internal notification manager (src/assets/js/notifications.ts) -/

/-- The `NotificationType` union of notifications.ts. -/
inductive NotifKind where
  | reminder | task_completed | system | warning | info
deriving DecidableEq

/-- The `NotificationAction` interface. -/
structure NotifAction where
  label : String
  action : String
  style : Option String
deriving DecidableEq

/-- The `Notification` interface (`kind` is the source's `type` field). -/
structure Notification where
  id : String
  kind : NotifKind
  title : String
  message : String
  timestamp : Int
  read : Bool
  taskId : Option String
  actions : List NotifAction
deriving DecidableEq

/-- The `ActiveReminder` interface. -/
structure ActiveReminder where
  taskId : String
  taskTitle : String
  datetime : Int
  timeoutId : Nat
deriving DecidableEq

/-- State of the `InternalNotificationManager` singleton together with the
browser pieces it drives: `reminders` is the `activeReminders` map (entries
keyed by `taskId`, newest first), `timers` the set of live `setTimeout`
registrations with `nextTimer` as the id supply, `nextNotifId` the
determinized `generateId` counter, and `errors`/`toasts` the messages
surfaced through `showError`/`showToast`, newest first. -/
structure NMState where
  notifications : List Notification
  reminders : List ActiveReminder
  timers : List Nat
  nextTimer : Nat
  nextNotifId : Nat
  errors : List (String × String)
  toasts : List String
deriving DecidableEq

/-- The manager state at initialization (empty storage). -/
def initNM : NMState :=
  { notifications := [], reminders := [], timers := [], nextTimer := 0,
    nextNotifId := 0, errors := [], toasts := [] }

/-- Embedding of `InternalNotificationManager.addNotification`
(notifications.ts, lines 188-200): unshift, then cap at
`MAX_NOTIFICATIONS = 50`. -/
def addNotification (n : Notification) (s : NMState) : NMState :=
  let l := n :: s.notifications
  { s with notifications := if 50 < l.length then l.take 50 else l }

/-- `activeReminders.get(taskId)`. -/
def findReminder (taskId : String) (s : NMState) : Option ActiveReminder :=
  s.reminders.find? (fun r => r.taskId == taskId)

/-- Embedding of `InternalNotificationManager.cancelReminder`
(notifications.ts, lines 144-151): clears the pending timer and deletes the
map entry when one exists, otherwise does nothing. -/
def cancelReminder (taskId : String) (s : NMState) : NMState :=
  match findReminder taskId s with
  | some r =>
    { s with timers := s.timers.erase r.timeoutId,
             reminders := s.reminders.filter (fun x => !(x.taskId == taskId)) }
  | none => s

def invalidDateError : String × String :=
  ("Fecha inválida", "El recordatorio debe ser programado para una fecha futura")

/-- Embedding of `InternalNotificationManager.scheduleReminder`
(notifications.ts, lines 102-139). `now` is `Date.now()`; the fresh timer id
drawn from `nextTimer` models the handle returned by `window.setTimeout`. -/
def scheduleReminder (now : Int) (taskId taskTitle : String) (datetime : Int)
    (s : NMState) : Bool × NMState :=
  let delay := datetime - now
  if delay ≤ 0 then
    (false, { s with errors := invalidDateError :: s.errors })
  else
    let s1 := cancelReminder taskId s
    let timeoutId := s1.nextTimer
    (true,
     { s1 with
       timers := timeoutId :: s1.timers,
       nextTimer := s1.nextTimer + 1,
       reminders :=
         { taskId := taskId, taskTitle := taskTitle, datetime := datetime,
           timeoutId := timeoutId } :: s1.reminders,
       toasts := "Recordatorio programado" :: s1.toasts })

/-- Embedding of `InternalNotificationManager.snoozeReminder`
(notifications.ts, lines 384-388). -/
def snoozeReminder (now : Int) (taskId taskTitle : String) (minutes : Int)
    (s : NMState) : Bool × NMState :=
  let snoozeTime := now + minutes * 60 * 1000
  let s1 := { s with toasts := "Recordatorio pospuesto" :: s.toasts }
  scheduleReminder now taskId taskTitle snoozeTime s1

/-- Determinized embedding of `generateId`
(`'notif_' + random + '_' + now`): distinct calls yield distinct ids. -/
def generateNotifId (s : NMState) : String × NMState :=
  ("notif_" ++ String.mk (List.replicate s.nextNotifId 'x'),
   { s with nextNotifId := s.nextNotifId + 1 })

/-- Embedding of `createTaskCompletedNotification`
(notifications.ts, lines 221-232). -/
def createTaskCompletedNotification (now : Int) (taskTitle : String)
    (s : NMState) : NMState :=
  let p := generateNotifId s
  addNotification
    { id := p.1, kind := .task_completed, title := "✅ Tarea Completada",
      message := "¡Felicidades! Has completado: " ++ taskTitle,
      timestamp := now, read := false, taskId := none, actions := [] } p.2

/-- The three reminder-scheduler entry points named by claim C6. -/
inductive NMOp where
  | schedule (now : Int) (taskId taskTitle : String) (datetime : Int)
  | cancel (taskId : String)
  | snooze (now : Int) (taskId taskTitle : String) (minutes : Int)

def applyNMOp (s : NMState) : NMOp → NMState
  | .schedule now id t dt => (scheduleReminder now id t dt s).2
  | .cancel id => cancelReminder id s
  | .snooze now id t m => (snoozeReminder now id t m s).2

def runNMOps (ops : List NMOp) : NMState :=
  ops.foldl applyNMOp initNM

/-- Scheduler bookkeeping invariant: the pending map has pairwise distinct
task identifiers, the live timers are exactly the timer handles recorded in
the map, and every live timer id is below the supply counter. -/
def SchedInv (s : NMState) : Prop :=
  (s.reminders.map (fun r => r.taskId)).Nodup ∧
  s.timers = s.reminders.map (fun r => r.timeoutId) ∧
  s.timers.Nodup ∧
  ∀ x ∈ s.timers, x < s.nextTimer

instance (s : NMState) : Decidable (SchedInv s) := by
  unfold SchedInv; infer_instance

/-! ## Task repository, activity log and CSV import/export
(main application file, src/unnamed/part_000) -/

/-- The optional `reminder` field of the `Task` interface. -/
structure TaskReminder where
  datetime : Int
  notified : Bool
deriving DecidableEq

/-- The `Task` interface of the main application file. The optional `tags`
array is modelled as a plain list (`[]` for absent); the unused optional
`priority` field is omitted. -/
structure Task where
  id : String
  title : String
  done : Bool
  createdAt : Int
  completedAt : Option Int
  tags : List String
  reminder : Option TaskReminder
deriving DecidableEq

/-- The `Activity["type"]` union. `remove`, `clearDone`, `resetAll`,
`exportData` and `importData` stand for the source strings `delete`,
`clear_done`, `reset_all`, `export` and `import`. -/
inductive ActivityType where
  | create | edit | complete | uncomplete | remove
  | clearDone | resetAll | exportData | importData
deriving DecidableEq

/-- The `Activity` interface (`kind` is the source's `type` field). -/
structure Activity where
  id : String
  kind : ActivityType
  taskId : Option String
  taskTitle : Option String
  timestamp : Int
  details : Option String
deriving DecidableEq

/-- Embedding of `addActivity` (part_000, lines 821-842): unshift the new
entry (whose fresh `uid()` result is the parameter `aid` and whose
timestamp is `now`), then keep only the most recent 100; returns the new
`state.activities`. -/
def addActivity (aid : String) (now : Int) (kind : ActivityType)
    (taskId taskTitle details : Option String) (acts : List Activity) :
    List Activity :=
  let acts1 : List Activity :=
    { id := aid, kind := kind, taskId := taskId, taskTitle := taskTitle,
      timestamp := now, details := details } :: acts
  if 100 < acts1.length then acts1.take 100 else acts1

/-- The argument tuple of one `addActivity` call, for reasoning about
arbitrary call sequences. -/
structure ActArgs where
  aid : String
  now : Int
  kind : ActivityType
  taskId : Option String
  taskTitle : Option String
  details : Option String
deriving DecidableEq

/-- The activity record that `addActivity` builds from one call. -/
def mkActivity (a : ActArgs) : Activity :=
  { id := a.aid, kind := a.kind, taskId := a.taskId, taskTitle := a.taskTitle,
    timestamp := a.now, details := a.details }

def addActivityA (a : ActArgs) (acts : List Activity) : List Activity :=
  addActivity a.aid a.now a.kind a.taskId a.taskTitle a.details acts

/-- A sequence of `addActivity` calls, oldest first. -/
def runAddActivities (l : List ActArgs) (acts : List Activity) : List Activity :=
  l.foldl (fun acc a => addActivityA a acc) acts

/-- The slice of the global `state` object that the embedded task
operations touch. -/
structure AppState where
  tasks : List Task
  activities : List Activity
deriving DecidableEq

/-- The body of `toggleTask`'s `state.tasks.map` (part_000, lines
1015-1046) with its side effects — `addActivity`, reminder cancellation or
re-scheduling, completion notification — executed element by element in
list order. -/
def toggleGo (now : Int) (aid id : String) :
    List Task → List Activity → NMState → List Task × List Activity × NMState
  | [], acts, nm => ([], acts, nm)
  | t :: rest, acts, nm =>
    if t.id == id then
      let newDone := !t.done
      let acts1 := addActivity aid now (if newDone then .complete else .uncomplete)
        (some t.id) (some t.title) none acts
      let nm1 :=
        if newDone then
          let nmc := if t.reminder.isSome then cancelReminder t.id nm else nm
          createTaskCompletedNotification now t.title nmc
        else
          match t.reminder with
          | some r =>
            if now < r.datetime then (scheduleReminder now t.id t.title r.datetime nm).2
            else nm
          | none => nm
      let t1 := { t with done := newDone,
                         completedAt := if newDone then some now else none }
      let res := toggleGo now aid id rest acts1 nm1
      (t1 :: res.1, res.2.1, res.2.2)
    else
      let res := toggleGo now aid id rest acts nm
      (t :: res.1, res.2.1, res.2.2)

/-- Embedding of `toggleTask`: `aid` is the fresh activity id, `now` is
`Date.now()`. -/
def toggleTask (now : Int) (aid id : String) (s : AppState) (nm : NMState) :
    AppState × NMState :=
  let res := toggleGo now aid id s.tasks s.activities nm
  ({ tasks := res.1, activities := res.2.1 }, res.2.2)

/-- Embedding of `addTask` (part_000, lines 934-973): `tid`/`aid` are the
fresh `uid()` results, `selectedTags` is `state.selectedTags`,
`reminderDatetime` the (truthy) result of `getReminderDatetime()`, and
`fmtDate` stands for `toLocaleString`. -/
def addTask (tid aid : String) (now : Int) (selectedTags : List String)
    (reminderDatetime : Option Int) (fmtDate : Int → String) (title : String)
    (s : AppState) (nm : NMState) : AppState × NMState :=
  let trimmed := jsTrim title
  if trimmed = "" then (s, nm)
  else
    let base : Task :=
      { id := tid, title := trimmed, done := false, createdAt := now,
        completedAt := none, tags := selectedTags, reminder := none }
    let p :=
      match reminderDatetime with
      | some dt =>
        ({ base with reminder := some { datetime := dt, notified := false } },
         (scheduleReminder now tid trimmed dt nm).2)
      | none => (base, nm)
    let details := reminderDatetime.map (fun dt => "Con recordatorio: " ++ fmtDate dt)
    let acts := addActivity aid now .create (some tid) (some trimmed) details s.activities
    ({ tasks := p.1 :: s.tasks, activities := acts }, p.2)

/-- Embedding of `editTaskTitle` (part_000, lines 1231-1262). `inputValue`
models the SweetAlert prompt result: `none` when cancelled or when the
entered value is falsy, `some v` when confirmed with a truthy `v`. -/
def editTaskTitle (aid : String) (now : Int) (id : String)
    (inputValue : Option String) (s : AppState) : AppState :=
  match s.tasks.find? (fun x => x.id == id) with
  | none => s
  | some t =>
    match inputValue with
    | none => s
    | some v =>
      let trimmed := jsTrim v
      if trimmed = "" then s
      else
        let acts := addActivity aid now .edit (some t.id) (some trimmed)
          (some ("De: \"" ++ t.title ++ "\" a: \"" ++ trimmed ++ "\"")) s.activities
        { tasks := s.tasks.map (fun x => if x.id == id then { x with title := trimmed } else x),
          activities := acts }

/-- The per-task row cells of `exportToCSV` (part_000, lines 262-292)
before `row.join(',')`; `fmtDate` stands for
`new Date(x).toLocaleString()`. -/
def taskCSVFields (fmtDate : Int → String) (task : Task) : List String :=
  [ task.id,
    "\"" ++ jsReplaceChar '"' "\"\"" task.title ++ "\"",
    if task.done then "Completada" else "Activa",
    fmtDate task.createdAt,
    (match task.completedAt with
     | some c => fmtDate c
     | none => ""),
    "\"" ++ jsJoin "; " task.tags ++ "\"" ]

def csvHeader : String :=
  jsJoin "," ["ID", "Título", "Estado", "Creada", "Completada", "Etiquetas"]

/-- The CSV file content built by `exportToCSV`. -/
def exportToCSV (fmtDate : Int → String) (tasks : List Task) : String :=
  jsJoin "\n" (csvHeader :: tasks.map (fun t => jsJoin "," (taskCSVFields fmtDate t)))

/-- One iteration of the `importFromCSV` row loop (part_000, lines
408-430): `parseDate` stands for `new Date(string).getTime()` and `fresh`
for the `uid()` drawn when the id cell is empty. -/
def csvRowToTask (parseDate : String → Int) (now : Int) (fresh : String)
    (line : String) : Option Task :=
  let l := jsTrim line
  if l = "" then none
  else
    let values := (jsSplit ',' l).map (fun v => stripEdgeQuotes (jsTrim v))
    if values.length < 3 then none
    else some
      { id := if values.getD 0 "" = "" then fresh else values.getD 0 "",
        title := if values.getD 1 "" = "" then "Tarea sin título" else values.getD 1 "",
        done := jsIncludes "completada" (jsToLower (values.getD 2 "")),
        createdAt := if values.getD 3 "" = "" then now else parseDate (values.getD 3 ""),
        completedAt := if values.getD 4 "" = "" then none
                       else some (parseDate (values.getD 4 "")),
        tags := if values.getD 5 "" = "" then []
                else ((jsSplit ';' (values.getD 5 "")).map jsTrim).filter (fun t => !(t = "")),
        reminder := none }

/-- Embedding of `importFromCSV` (part_000, lines 398-452) up to the user
confirmation: header validation and row parsing. `uids i` is the `uid()`
result available to row `i`. -/
def parseCSVImport (parseDate : String → Int) (uids : Nat → String) (now : Int)
    (content : String) : Except String (List Task) :=
  let lines := jsSplit '\n' content
  let headers := (jsSplit ',' (lines.headD "")).map (fun h => jsReplaceChar '"' "" (jsTrim h))
  if headers.length < 3 then
    Except.error "Formato CSV inválido: se requieren al menos 3 columnas"
  else
    Except.ok (((lines.drop 1).enum).filterMap (fun p => csvRowToTask parseDate now (uids p.1) p.2))

/-- The state update of `importFromCSV` once the user confirms: wholesale
replacement of the tasks plus one `import` activity (the row count embedded
in the details text is elided). -/
def applyCSVImport (parseDate : String → Int) (uids : Nat → String)
    (aid : String) (now : Int) (content : String) (s : AppState) : AppState :=
  match parseCSVImport parseDate uids now content with
  | Except.error _ => s
  | Except.ok tasks =>
    { tasks := tasks,
      activities := addActivity aid now .importData none none
        (some "tareas importadas desde CSV") s.activities }

/-- The §3 data-model invariant of the specification: the completion
instant is present iff the completion flag is true. -/
def TaskInv (t : Task) : Prop := t.completedAt.isSome = t.done

instance (t : Task) : Decidable (TaskInv t) := by
  unfold TaskInv; infer_instance

/-- The task mutations of the amended claim C3 (the operations that
preserve the data-model invariant). -/
inductive TOp where
  | add (tid aid : String) (now : Int) (selectedTags : List String)
      (reminderDatetime : Option Int) (title : String)
  | toggle (now : Int) (aid id : String)
  | edit (aid : String) (now : Int) (id : String) (inputValue : Option String)

def applyTOp (fmtDate : Int → String) (st : AppState × NMState) :
    TOp → AppState × NMState
  | .add tid aid now tags rem title => addTask tid aid now tags rem fmtDate title st.1 st.2
  | .toggle now aid id => toggleTask now aid id st.1 st.2
  | .edit aid now id v => (editTaskTitle aid now id v st.1, st.2)

def runTOps (fmtDate : Int → String) (ops : List TOp)
    (st : AppState × NMState) : AppState × NMState :=
  ops.foldl (applyTOp fmtDate) st

/-! ## Specification-side definitions -/

/-- The productivity-score formula exactly as claim C4 (spec §4.3) states
it — completion rate `completedTasks/totalTasks*100` (0 when
no tasks) and recent counts over the trailing 7×24h window **ending at**
`now`. Kept separate from `calculateProductivityScore` so the two can be
compared. -/
def claimProductivityScore (now : Int) (tasks : List PTask) : Int :=
  let completed : Int := ((tasks.filter (fun t => t.done)).length : Int)
  let total : Int := (tasks.length : Int)
  let completionRate : Rat :=
    if total = 0 then 0 else ((completed : Rat) / (total : Rat)) * 100
  let recentCreated : Int :=
    ((tasks.filter (fun t =>
      decide (now - weekMs < t.createdAt) && decide (t.createdAt ≤ now))).length : Int)
  let recentCompleted : Int :=
    ((tasks.filter (fun t =>
      match t.completedAt with
      | some c => decide (now - weekMs < c) && decide (c ≤ now)
      | none => false)).length : Int)
  min 100 (jsRound (completionRate * (6 / 10)
    + min ((recentCreated : Rat) * 5) 30
    + min ((recentCompleted : Rat) * 10) 10))

/-- The amended C4 formula: identical to the claim's formula except that the
recent counts use the code's one-sided window (`> now − 7·24h`, no upper
bound) and the completion count uses the code's truthiness test (a present,
nonzero completion instant). -/
def amendedProductivityScore (now : Int) (tasks : List PTask) : Int :=
  let completed : Int := ((tasks.filter (fun t => t.done)).length : Int)
  let total : Int := (tasks.length : Int)
  let completionRate : Rat :=
    if total = 0 then 0 else ((completed : Rat) / (total : Rat)) * 100
  let recentCreated : Int :=
    ((tasks.filter (fun t => decide (now - weekMs < t.createdAt))).length : Int)
  let recentCompleted : Int :=
    ((tasks.filter (fun t =>
      numTruthy t.completedAt && decide (now - weekMs < t.completedAt.getD 0))).length : Int)
  min 100 (jsRound (completionRate * (6 / 10)
    + min ((recentCreated : Rat) * 5) 30
    + min ((recentCompleted : Rat) * 10) 10))

/-! ## Concrete instances used by witnesses and counterexamples -/

/-- A not-yet-created task: its creation instant lies in the future of the
evaluation instant `now = 0`. -/
def futurePTask : PTask := { done := false, createdAt := 1000, completedAt := none }

/-- The claim C2 task, titled `Say "hi"`. -/
def cxTask : Task :=
  { id := "t1", title := "Say \"hi\"", done := false, createdAt := 0,
    completedAt := none, tags := [], reminder := none }

/-- A concrete comma-free locale date rendering for the C2 round trip. -/
def cxFmt : Int → String := fun _ => "01/01/2024 00:00:00"

def cxParse : String → Int := fun _ => 0

def cxUids : Nat → String := fun _ => "u"

/-- What the C2 round trip actually produces: the outer quotes are stripped
but the doubled internal quotes survive. -/
def cxImported : Task :=
  { id := "t1", title := "Say \"\"hi\"\"", done := false, createdAt := 0,
    completedAt := none, tags := [], reminder := none }

/-- A CSV file whose single row has state `Activa` but a non-empty
`Completada` cell. -/
def invCSV : String := csvHeader ++ "\n" ++ "id1,Tarea,Activa,100,200,"

def invParse : String → Int := fun _ => 555

/-- The task `importFromCSV` builds from the `invCSV` row. -/
def invTask : Task :=
  { id := "id1", title := "Tarea", done := false, createdAt := 555,
    completedAt := some 555, tags := [], reminder := none }

/-- A list of 100 activities with pairwise distinct ids. -/
def acts100 : List Activity :=
  (List.range 100).map (fun i =>
    { id := String.mk [Char.ofNat (65 + i / 10), Char.ofNat (65 + i % 10)],
      kind := .create, taskId := none, taskTitle := none, timestamp := 0,
      details := none })

def wArgs : ActArgs :=
  { aid := "zz", now := 7, kind := .edit, taskId := none, taskTitle := none,
    details := none }

/-- The oldest entry of `acts100` (index 99, id `"JJ"`). -/
def wOld : Activity :=
  { id := "JJ", kind := .create, taskId := none, taskTitle := none,
    timestamp := 0, details := none }

/-- A list of 50 notifications with pairwise distinct ids. -/
def notifs50 : List Notification :=
  (List.range 50).map (fun i =>
    { id := String.mk [Char.ofNat (65 + i)], kind := .info, title := "",
      message := "", timestamp := 0, read := false, taskId := none,
      actions := [] })

/-- A manager state whose feed already holds 50 notifications. -/
def s50 : NMState := { initNM with notifications := notifs50 }

def wNotif : Notification :=
  { id := "new", kind := .system, title := "t", message := "m",
    timestamp := 1, read := false, taskId := none, actions := [] }

/-- A manager state with one pending reminder for task `t1`. -/
def nmW : NMState :=
  { notifications := [],
    reminders := [{ taskId := "t1", taskTitle := "T", datetime := 100, timeoutId := 0 }],
    timers := [0], nextTimer := 1, nextNotifId := 0, errors := [], toasts := [] }

/-- An active task `t1` carrying a reminder at instant 100. -/
def taskW0 : Task :=
  { id := "t1", title := "T", done := false, createdAt := 0, completedAt := none,
    tags := [], reminder := some { datetime := 100, notified := false } }

/-- A completed task `t1` carrying a reminder at instant 100. -/
def taskW1 : Task :=
  { id := "t1", title := "T", done := true, createdAt := 0, completedAt := some 0,
    tags := [], reminder := some { datetime := 100, notified := false } }

/-- A sample scheduler call sequence: two schedules on the same task,
a snooze on another, a cancellation. -/
def wOps : List NMOp :=
  [ .schedule 0 "a" "TA" 100, .schedule 0 "a" "TB" 200,
    .snooze 0 "b" "TB" 5, .cancel "a" ]

/-- A single-task repository for the frame-effect witness. -/
def wApp : AppState :=
  { tasks := [{ id := "t1", title := "T", done := false, createdAt := 0,
                completedAt := none, tags := [], reminder := none }],
    activities := [] }

/-- The notification feed after a sequence of `addNotification` calls,
oldest first, starting from the initial manager state. -/
def foldNotifications (ns : List Notification) : NMState :=
  ns.foldl (fun s n => addNotification n s) initNM

/-! ## Helper lemmas -/

theorem jsRound_nonneg {q : Rat} (h : 0 ≤ q) : 0 ≤ jsRound q := by
  unfold jsRound
  exact Int.le_floor.2 (by push_cast; linarith)

theorem score_shape_nonneg (r x y : Rat) (hr : 0 ≤ r) (hx : 0 ≤ x) (hy : 0 ≤ y) :
    0 ≤ min (100 : Int) (jsRound (r * (6 / 10) + min (x * 5) 30 + min (y * 10) 10)) := by
  refine le_min (by norm_num) (jsRound_nonneg ?_)
  have h1 : (0 : Rat) ≤ r * (6 / 10) := by positivity
  have h2 : (0 : Rat) ≤ min (x * 5) 30 := le_min (by positivity) (by norm_num)
  have h3 : (0 : Rat) ≤ min (y * 10) 10 := le_min (by positivity) (by norm_num)
  linarith

theorem toggleGo_skip_all (now : Int) (aid id : String) (ts : List Task) :
    ∀ (acts : List Activity) (nm : NMState), (∀ t ∈ ts, t.id ≠ id) →
      toggleGo now aid id ts acts nm = (ts, acts, nm) := by
  induction ts with
  | nil => intro acts nm _; rfl
  | cons t ts ih =>
    intro acts nm h
    have ht : ¬((t.id == id) = true) := by
      simp only [beq_iff_eq]
      exact h t (List.mem_cons_self t ts)
    simp only [toggleGo, if_neg ht]
    rw [ih acts nm (fun u hu => h u (List.mem_cons_of_mem _ hu))]

theorem addActivityA_eq_ite (a : ActArgs) (acts : List Activity) :
    addActivityA a acts =
      if 100 < (mkActivity a :: acts).length then (mkActivity a :: acts).take 100
      else mkActivity a :: acts := rfl

theorem addActivityA_length_le (a : ActArgs) (acts : List Activity)
    (h : acts.length ≤ 100) : (addActivityA a acts).length ≤ 100 := by
  rw [addActivityA_eq_ite]
  split
  · simp [List.length_take]
  · next hc =>
    simp only [List.length_cons] at hc ⊢
    omega

theorem runAddActivities_length_le (l : List ActArgs) :
    ∀ acts : List Activity, acts.length ≤ 100 →
      (runAddActivities l acts).length ≤ 100 := by
  induction l with
  | nil => intro acts h; simpa [runAddActivities] using h
  | cons a l ih =>
    intro acts h
    simpa [runAddActivities, List.foldl_cons] using
      ih (addActivityA a acts) (addActivityA_length_le a acts h)

theorem nodup_getLast?_not_mem_take {α : Type} (l : List α) (hnd : l.Nodup)
    (x : α) (hx : l.getLast? = some x) : x ∉ l.take (l.length - 1) := by
  have hsplit : l.take (l.length - 1) ++ l.drop (l.length - 1) = l :=
    List.take_append_drop _ _
  have hnd2 : (l.take (l.length - 1) ++ l.drop (l.length - 1)).Nodup := by
    rw [hsplit]; exact hnd
  rw [List.nodup_append] at hnd2
  have hget : l[l.length - 1]? = some x := by
    rw [← List.getLast?_eq_getElem?]; exact hx
  have hxmem : x ∈ l.drop (l.length - 1) := by
    have h0 : (l.drop (l.length - 1))[0]? = some x := by
      rw [List.getElem?_drop]; simpa using hget
    exact List.getElem?_mem h0
  exact fun hmem => hnd2.2.2 hmem hxmem

theorem addNotification_notifications_eq (s : NMState) (n : Notification) :
    (addNotification n s).notifications =
      if 50 < (n :: s.notifications).length then (n :: s.notifications).take 50
      else n :: s.notifications := rfl

theorem addNotification_length_le (s : NMState) (n : Notification)
    (h : s.notifications.length ≤ 50) :
    (addNotification n s).notifications.length ≤ 50 := by
  rw [addNotification_notifications_eq]
  split
  · simp [List.length_take]
  · next hc =>
    simp only [List.length_cons] at hc ⊢
    omega

theorem foldAddNotification_le (ns : List Notification) :
    ∀ s : NMState, s.notifications.length ≤ 50 →
      ((ns.foldl (fun s n => addNotification n s) s).notifications).length ≤ 50 := by
  induction ns with
  | nil => intro s h; simpa using h
  | cons n ns ih =>
    intro s h
    simpa [List.foldl_cons] using ih (addNotification n s) (addNotification_length_le s n h)

theorem reminders_filter_map_erase (l : List ActiveReminder) (id : String)
    (r : ActiveReminder)
    (hkeys : (l.map (fun x => x.taskId)).Nodup)
    (htids : (l.map (fun x => x.timeoutId)).Nodup)
    (hfind : l.find? (fun x => x.taskId == id) = some r) :
    (l.filter (fun x => !(x.taskId == id))).map (fun x => x.timeoutId) =
      (l.map (fun x => x.timeoutId)).erase r.timeoutId := by
  induction l with
  | nil => simp at hfind
  | cons a t ih =>
    simp only [List.map_cons, List.nodup_cons] at hkeys htids
    by_cases hc : (a.taskId == id) = true
    · rw [List.find?_cons_of_pos t hc] at hfind
      have har : a = r := by injection hfind
      subst har
      rw [List.filter_cons_of_neg (by simp [hc])]
      have haid : a.taskId = id := by simpa using hc
      have hall : t.filter (fun x => !(x.taskId == id)) = t := by
        apply List.filter_eq_self.2
        intro x hx
        have hmem : x.taskId ∈ t.map (fun x => x.taskId) := List.mem_map_of_mem _ hx
        have hne : x.taskId ≠ id := by
          intro heq
          apply hkeys.1
          rw [haid, ← heq]
          exact hmem
        simp [hne]
      rw [hall, List.map_cons, List.erase_cons_head]
    · rw [List.find?_cons_of_neg t hc] at hfind
      rw [List.filter_cons_of_pos (by simp [hc])]
      have hrt : r ∈ t := List.mem_of_find?_eq_some hfind
      have hrtid : r.timeoutId ∈ t.map (fun x => x.timeoutId) :=
        List.mem_map_of_mem _ hrt
      have hne : ¬(a.timeoutId == r.timeoutId) = true := by
        simp only [beq_iff_eq]
        intro heq
        exact htids.1 (heq ▸ hrtid)
      simp only [List.map_cons]
      rw [List.erase_cons_tail hne, ih hkeys.2 htids.2 hfind]

theorem cancelReminder_of_none (id : String) (s : NMState)
    (h : findReminder id s = none) : cancelReminder id s = s := by
  unfold cancelReminder
  rw [h]

theorem cancelReminder_of_find (id : String) (s : NMState) (r : ActiveReminder)
    (h : findReminder id s = some r) :
    cancelReminder id s =
      { s with timers := s.timers.erase r.timeoutId,
               reminders := s.reminders.filter (fun x => !(x.taskId == id)) } := by
  unfold cancelReminder
  rw [h]

theorem cancelReminder_nextTimer (id : String) (s : NMState) :
    (cancelReminder id s).nextTimer = s.nextTimer := by
  cases h : findReminder id s with
  | none => rw [cancelReminder_of_none id s h]
  | some r => rw [cancelReminder_of_find id s r h]

theorem cancelReminder_notifications (id : String) (s : NMState) :
    (cancelReminder id s).notifications = s.notifications := by
  cases h : findReminder id s with
  | none => rw [cancelReminder_of_none id s h]
  | some r => rw [cancelReminder_of_find id s r h]

theorem schedInv_cancel (id : String) (s : NMState) (h : SchedInv s) :
    SchedInv (cancelReminder id s) := by
  obtain ⟨hkeys, htimers, hnodup, hbound⟩ := h
  cases hf : findReminder id s with
  | none =>
    rw [cancelReminder_of_none id s hf]
    exact ⟨hkeys, htimers, hnodup, hbound⟩
  | some r =>
    rw [cancelReminder_of_find id s r hf]
    have htids : (s.reminders.map (fun x => x.timeoutId)).Nodup := htimers ▸ hnodup
    have hfind : s.reminders.find? (fun x => x.taskId == id) = some r := hf
    refine ⟨?_, ?_, ?_, ?_⟩
    · exact ((List.filter_sublist _).map _).nodup hkeys
    · rw [htimers]
      exact (reminders_filter_map_erase s.reminders id r hkeys htids hfind).symm
    · exact hnodup.erase _
    · intro x hx
      exact hbound x (List.mem_of_mem_erase hx)

theorem notMem_keys_cancel (id : String) (s : NMState) :
    id ∉ ((cancelReminder id s).reminders.map (fun x => x.taskId)) := by
  cases hf : findReminder id s with
  | none =>
    rw [cancelReminder_of_none id s hf]
    intro hmem
    obtain ⟨x, hx, hxid⟩ := List.mem_map.1 hmem
    have hnone : ∀ y ∈ s.reminders, ¬(y.taskId == id) = true := List.find?_eq_none.1 hf
    exact hnone x hx (by simp [hxid])
  | some r =>
    rw [cancelReminder_of_find id s r hf]
    intro hmem
    obtain ⟨x, hx, hxid⟩ := List.mem_map.1 hmem
    have hfil := (List.mem_filter.1 hx).2
    rw [hxid] at hfil
    simp at hfil

theorem scheduleReminder_nonpos (now : Int) (id title : String) (dt : Int)
    (s : NMState) (h : dt - now ≤ 0) :
    scheduleReminder now id title dt s =
      (false, { s with errors := invalidDateError :: s.errors }) := by
  simp only [scheduleReminder]
  rw [if_pos h]

theorem scheduleReminder_pos (now : Int) (id title : String) (dt : Int)
    (s : NMState) (h : ¬(dt - now ≤ 0)) :
    scheduleReminder now id title dt s =
      (true,
       { cancelReminder id s with
         timers := (cancelReminder id s).nextTimer :: (cancelReminder id s).timers,
         nextTimer := (cancelReminder id s).nextTimer + 1,
         reminders :=
           { taskId := id, taskTitle := title, datetime := dt,
             timeoutId := (cancelReminder id s).nextTimer } ::
             (cancelReminder id s).reminders,
         toasts := "Recordatorio programado" :: (cancelReminder id s).toasts }) := by
  simp only [scheduleReminder]
  rw [if_neg h]

theorem schedInv_schedule (now : Int) (id title : String) (dt : Int)
    (s : NMState) (h : SchedInv s) :
    SchedInv (scheduleReminder now id title dt s).2 := by
  by_cases hd : dt - now ≤ 0
  · rw [scheduleReminder_nonpos now id title dt s hd]
    exact ⟨h.1, h.2.1, h.2.2.1, h.2.2.2⟩
  · rw [scheduleReminder_pos now id title dt s hd]
    have hc := schedInv_cancel id s h
    have hkey := notMem_keys_cancel id s
    obtain ⟨hk1, ht1, hn1, hb1⟩ := hc
    refine ⟨?_, ?_, ?_, ?_⟩
    · simp only [List.map_cons]
      exact List.nodup_cons.2 ⟨hkey, hk1⟩
    · simp only [List.map_cons, ht1]
    · refine List.nodup_cons.2 ⟨?_, hn1⟩
      intro hmem
      exact absurd (hb1 _ hmem) (lt_irrefl _)
    · intro x hx
      rcases List.mem_cons.1 hx with h1 | h1
      · exact h1 ▸ Nat.lt_succ_self _
      · exact Nat.lt_succ_of_lt (hb1 x h1)

theorem schedInv_snooze (now : Int) (id title : String) (m : Int)
    (s : NMState) (h : SchedInv s) :
    SchedInv (snoozeReminder now id title m s).2 :=
  schedInv_schedule now id title (now + m * 60 * 1000)
    { s with toasts := "Recordatorio pospuesto" :: s.toasts }
    ⟨h.1, h.2.1, h.2.2.1, h.2.2.2⟩

theorem schedInv_apply (s : NMState) (h : SchedInv s) (op : NMOp) :
    SchedInv (applyNMOp s op) := by
  cases op with
  | schedule now id t dt => exact schedInv_schedule now id t dt s h
  | cancel id => exact schedInv_cancel id s h
  | snooze now id t m => exact schedInv_snooze now id t m s h

theorem schedInv_foldl (ops : List NMOp) :
    ∀ s : NMState, SchedInv s → SchedInv (ops.foldl applyNMOp s) := by
  induction ops with
  | nil => intro s h; simpa using h
  | cons op ops ih =>
    intro s h
    simpa [List.foldl_cons] using ih (applyNMOp s op) (schedInv_apply s h op)

theorem schedInv_run (ops : List NMOp) : SchedInv (runNMOps ops) :=
  schedInv_foldl ops initNM (by decide)

theorem findReminder_cancel_self (id : String) (s : NMState) :
    findReminder id (cancelReminder id s) = none := by
  cases hf : findReminder id s with
  | none => rw [cancelReminder_of_none id s hf]; exact hf
  | some r =>
    rw [cancelReminder_of_find id s r hf]
    unfold findReminder
    apply List.find?_eq_none.2
    intro x hx
    have := (List.mem_filter.1 hx).2
    simp only [Bool.not_eq_eq_eq_not, Bool.not_true] at this
    simp [this]

theorem length_filter_key_le_one (l : List ActiveReminder) (id : String)
    (h : (l.map (fun x => x.taskId)).Nodup) :
    (l.filter (fun x => x.taskId == id)).length ≤ 1 := by
  induction l with
  | nil => simp
  | cons a t ih =>
    simp only [List.map_cons, List.nodup_cons] at h
    by_cases hc : (a.taskId == id) = true
    · rw [List.filter_cons_of_pos (by exact hc)]
      have haid : a.taskId = id := by simpa using hc
      have hnil : t.filter (fun x => x.taskId == id) = [] := by
        apply List.filter_eq_nil_iff.2
        intro x hx
        have hmem : x.taskId ∈ t.map (fun x => x.taskId) := List.mem_map_of_mem _ hx
        have hne : x.taskId ≠ id := by
          intro heq
          apply h.1
          rw [haid, ← heq]
          exact hmem
        simp [hne]
      rw [hnil]
      simp
    · rw [List.filter_cons_of_neg (by exact hc)]
      exact ih h.2

theorem schedule_replaces (s : NMState) (now : Int) (id title : String)
    (dt : Int) (r : ActiveReminder) (hinv : SchedInv s)
    (hfind : findReminder id s = some r)
    (hsucc : (scheduleReminder now id title dt s).1 = true) :
    findReminder id (scheduleReminder now id title dt s).2 =
      some { taskId := id, taskTitle := title, datetime := dt,
             timeoutId := s.nextTimer } ∧
    r.timeoutId ∉ (scheduleReminder now id title dt s).2.timers := by
  by_cases hd : dt - now ≤ 0
  · rw [scheduleReminder_nonpos now id title dt s hd] at hsucc
    simp at hsucc
  · rw [scheduleReminder_pos now id title dt s hd]
    obtain ⟨hkeys, htimers, hnodup, hbound⟩ := hinv
    have hrmem : r ∈ s.reminders := List.mem_of_find?_eq_some hfind
    have hrtid : r.timeoutId ∈ s.timers := by
      rw [htimers]
      exact List.mem_map_of_mem _ hrmem
    have hlt : r.timeoutId < s.nextTimer := hbound _ hrtid
    constructor
    · unfold findReminder
      rw [List.find?_cons_of_pos _ (by simp)]
      rw [cancelReminder_nextTimer]
    · simp only [List.mem_cons, not_or]
      constructor
      · rw [cancelReminder_nextTimer]
        omega
      · rw [cancelReminder_of_find id s r hfind]
        exact hnodup.not_mem_erase

theorem createTCN_reminders (now : Int) (ttl : String) (s : NMState) :
    (createTaskCompletedNotification now ttl s).reminders = s.reminders := rfl

theorem createTCN_timers (now : Int) (ttl : String) (s : NMState) :
    (createTaskCompletedNotification now ttl s).timers = s.timers := rfl

theorem findReminder_createTCN (id : String) (now : Int) (ttl : String)
    (s : NMState) :
    findReminder id (createTaskCompletedNotification now ttl s) =
      findReminder id s := rfl

theorem toggleGo_append_skip (now : Int) (aid id : String) (pre : List Task) :
    (∀ u ∈ pre, u.id ≠ id) →
    ∀ (rest : List Task) (acts : List Activity) (nm : NMState),
      toggleGo now aid id (pre ++ rest) acts nm =
        (pre ++ (toggleGo now aid id rest acts nm).1,
         (toggleGo now aid id rest acts nm).2.1,
         (toggleGo now aid id rest acts nm).2.2) := by
  induction pre with
  | nil =>
    intro _ rest acts nm
    simp
  | cons u pre ih =>
    intro h rest acts nm
    have hu : ¬((u.id == id) = true) := by
      simp only [beq_iff_eq]
      exact h u (List.mem_cons_self u pre)
    simp only [List.cons_append, toggleGo, if_neg hu, List.append_eq]
    rw [ih (fun v hv => h v (List.mem_cons_of_mem _ hv)) rest acts nm]

theorem toggleGo_tasks_inv (now : Int) (aid id : String) (ts : List Task) :
    ∀ (acts : List Activity) (nm : NMState), (∀ t ∈ ts, TaskInv t) →
      ∀ t ∈ (toggleGo now aid id ts acts nm).1, TaskInv t := by
  induction ts with
  | nil =>
    intro acts nm _ t ht
    simp [toggleGo] at ht
  | cons u ts ih =>
    intro acts nm h t ht
    by_cases hc : (u.id == id) = true
    · simp only [toggleGo, if_pos hc] at ht
      rcases List.mem_cons.1 ht with h1 | h1
      · subst h1
        unfold TaskInv
        cases hu : u.done <;> simp [hu]
      · exact ih _ _ (fun v hv => h v (List.mem_cons_of_mem _ hv)) t h1
    · simp only [toggleGo, if_neg hc] at ht
      rcases List.mem_cons.1 ht with h1 | h1
      · rw [h1]
        exact h u (List.mem_cons_self u ts)
      · exact ih _ _ (fun v hv => h v (List.mem_cons_of_mem _ hv)) t h1

theorem addTask_tasks_inv (tid aid : String) (now : Int) (tags : List String)
    (rem : Option Int) (fmtDate : Int → String) (title : String)
    (s : AppState) (nm : NMState) (h : ∀ t ∈ s.tasks, TaskInv t) :
    ∀ t ∈ (addTask tid aid now tags rem fmtDate title s nm).1.tasks, TaskInv t := by
  intro t ht
  by_cases htr : jsTrim title = ""
  · simp only [addTask, if_pos htr] at ht
    exact h t ht
  · cases hr : rem with
    | none =>
      simp only [addTask, if_neg htr, hr] at ht
      rcases List.mem_cons.1 ht with h1 | h1
      · subst h1
        rfl
      · exact h t h1
    | some dt =>
      simp only [addTask, if_neg htr, hr] at ht
      rcases List.mem_cons.1 ht with h1 | h1
      · subst h1
        rfl
      · exact h t h1

theorem editTaskTitle_tasks_inv (aid : String) (now : Int) (id : String)
    (v : Option String) (s : AppState) (h : ∀ t ∈ s.tasks, TaskInv t) :
    ∀ t ∈ (editTaskTitle aid now id v s).tasks, TaskInv t := by
  cases hf : s.tasks.find? (fun x => x.id == id) with
  | none =>
    simp only [editTaskTitle, hf]
    exact h
  | some t0 =>
    cases v with
    | none =>
      simp only [editTaskTitle, hf]
      exact h
    | some v0 =>
      simp only [editTaskTitle, hf]
      by_cases htr : jsTrim v0 = ""
      · rw [if_pos htr]
        exact h
      · rw [if_neg htr]
        intro t ht
        simp only [List.mem_map] at ht
        obtain ⟨x, hx, hxe⟩ := ht
        subst hxe
        by_cases hxid : (x.id == id) = true
        · rw [if_pos hxid]
          exact h x hx
        · rw [if_neg hxid]
          exact h x hx

theorem runTOps_tasks_inv (fmtDate : Int → String) (ops : List TOp) :
    ∀ st : AppState × NMState, (∀ t ∈ st.1.tasks, TaskInv t) →
      ∀ t ∈ (runTOps fmtDate ops st).1.tasks, TaskInv t := by
  induction ops with
  | nil =>
    intro st h
    simpa [runTOps] using h
  | cons op ops ih =>
    intro st h
    have hstep : ∀ t ∈ (applyTOp fmtDate st op).1.tasks, TaskInv t := by
      cases op with
      | add tid aid now tags rem title =>
        exact addTask_tasks_inv tid aid now tags rem fmtDate title st.1 st.2 h
      | toggle now aid id =>
        intro t ht
        exact toggleGo_tasks_inv now aid id st.1.tasks st.1.activities st.2 h t ht
      | edit aid now id v =>
        exact editTaskTitle_tasks_inv aid now id v st.1 h
    simpa [runTOps, List.foldl_cons] using ih (applyTOp fmtDate st op) hstep

/-! ## Claims -/

/-- C1 (code bug): on the task list with completions today, yesterday and
three days ago (a gap at day 2), `calculateStreakDays` returns 1, not the
2 the specification's streak walk prescribes: the loop decrements
`currentDate` *and* compares `diffDays` against the running `streak`, so
the yesterday completion (whose `diffDays` is 0 while `streak` is 1) is
skipped instead of extending the streak. -/
theorem calculateStreakDays_gap_example :
    calculateStreakDays streakNow streakTasks = 1 := by decide

/-- C4 counterexample: for a task whose creation instant lies in the future
of `now`, the code counts it among the "recent" tasks (its filter has no
upper bound), while the claim's trailing 7×24h window ending at `now` does
not; at `now = 0` the code scores 5 and the claimed formula scores 0. -/
theorem productivity_window_counterexample :
    calculateProductivityScore 0 [futurePTask] = 5 ∧
    claimProductivityScore 0 [futurePTask] = 0 := by
  constructor
  · have h1 : ([futurePTask].filter (fun t => t.done)) = [] := rfl
    have h2 : ([futurePTask].filter (fun t => decide (0 - weekMs < t.createdAt))) = [futurePTask] := rfl
    have h3 : ([futurePTask].filter (fun t =>
        numTruthy t.completedAt && decide (0 - weekMs < t.completedAt.getD 0))) = [] := rfl
    simp only [calculateProductivityScore, h1, h2, h3]
    norm_num [jsRound]
  · have h1 : ([futurePTask].filter (fun t => t.done)) = [] := rfl
    have h2 : ([futurePTask].filter (fun t =>
        decide (0 - weekMs < t.createdAt) && decide (t.createdAt ≤ 0))) = [] := rfl
    have h3 : ([futurePTask].filter (fun t =>
        match t.completedAt with
        | some c => decide (0 - weekMs < c) && decide (c ≤ 0)
        | none => false)) = [] := rfl
    simp only [claimProductivityScore, h1, h2, h3]
    norm_num [jsRound]

/-- C4 (amended): the productivity score equals the claimed formula once
the recent counts are read with the code's one-sided window (`createdAt`
resp. a present nonzero `completedAt` strictly above `now − 7·24h`, with no
upper bound); the score is an integer in [0, 100] and is 0 for the empty
task list. -/
theorem productivity_score_amended (now : Int) (tasks : List PTask) :
    calculateProductivityScore now tasks = amendedProductivityScore now tasks ∧
    0 ≤ calculateProductivityScore now tasks ∧
    calculateProductivityScore now tasks ≤ 100 ∧
    calculateProductivityScore now [] = 0 := by
  refine ⟨?_, ?_, ?_, ?_⟩
  · cases tasks with
    | nil =>
      have h0 : calculateProductivityScore now [] = 0 := rfl
      rw [h0]
      have h1 : (([] : List PTask).filter (fun t => t.done)) = [] := rfl
      simp only [amendedProductivityScore, h1]
      norm_num [jsRound]
    | cons a l =>
      simp only [calculateProductivityScore, amendedProductivityScore]
      rw [if_neg (by simp), if_neg (by simp only [List.length_cons]; omega)]
  · cases tasks with
    | nil => norm_num [calculateProductivityScore]
    | cons a l =>
      simp only [calculateProductivityScore]
      rw [if_neg (by simp)]
      exact score_shape_nonneg _ _ _ (by positivity) (by positivity) (by positivity)
  · cases tasks with
    | nil => norm_num [calculateProductivityScore]
    | cons a l =>
      simp only [calculateProductivityScore]
      rw [if_neg (by simp)]
      exact min_le_left _ _
  · rfl

/-- C5: scheduling a reminder whose target instant is not in the future
returns false, surfaces the invalid-date error, and leaves the pending
reminders, the live timers and the notification feed untouched. -/
theorem scheduleReminder_past_noop (s : NMState) (now : Int)
    (taskId taskTitle : String) (datetime : Int) (h : datetime ≤ now) :
    (scheduleReminder now taskId taskTitle datetime s).1 = false ∧
    (scheduleReminder now taskId taskTitle datetime s).2.reminders = s.reminders ∧
    (scheduleReminder now taskId taskTitle datetime s).2.timers = s.timers ∧
    (scheduleReminder now taskId taskTitle datetime s).2.notifications = s.notifications ∧
    (scheduleReminder now taskId taskTitle datetime s).2.errors = invalidDateError :: s.errors := by
  simp [scheduleReminder, sub_nonpos, h]

/-- C5 witness: the theorem applied at `datetime = now = 5` on the initial
manager state. -/
theorem scheduleReminder_past_noop_witness :
    (scheduleReminder 5 "t1" "T" 5 initNM).1 = false ∧
    (scheduleReminder 5 "t1" "T" 5 initNM).2.reminders = initNM.reminders ∧
    (scheduleReminder 5 "t1" "T" 5 initNM).2.timers = initNM.timers ∧
    (scheduleReminder 5 "t1" "T" 5 initNM).2.notifications = initNM.notifications ∧
    (scheduleReminder 5 "t1" "T" 5 initNM).2.errors = invalidDateError :: initNM.errors :=
  scheduleReminder_past_noop initNM 5 "t1" "T" 5 (by decide)

/-- C7: the activity log never exceeds 100 entries over any sequence of
`addActivity` calls starting from the empty log; appending to a log of 100
entries yields the new entry at index 0 followed by the first 99 old
entries, and (when ids are unique and the new id fresh) the oldest entry is
gone. -/
theorem activity_log_bounded :
    (∀ l : List ActArgs, (runAddActivities l []).length ≤ 100) ∧
    (∀ (acts : List Activity) (a : ActArgs), acts.length = 100 →
      addActivityA a acts = mkActivity a :: acts.take 99 ∧
      (addActivityA a acts).head? = some (mkActivity a) ∧
      (∀ old, acts.getLast? = some old →
        (acts.map (fun x => x.id)).Nodup →
        (mkActivity a).id ∉ acts.map (fun x => x.id) →
        old.id ∉ (addActivityA a acts).map (fun x => x.id))) := by
  constructor
  · intro l
    exact runAddActivities_length_le l [] (by simp)
  · intro acts a hlen
    have heq : addActivityA a acts = mkActivity a :: acts.take 99 := by
      rw [addActivityA_eq_ite]
      rw [if_pos (by simp only [List.length_cons, hlen]; omega)]
      rw [show (100 : Nat) = 99 + 1 from rfl, List.take_succ_cons]
    refine ⟨heq, by rw [heq]; rfl, ?_⟩
    intro old hold hnd hfresh
    rw [heq]
    simp only [List.map_cons, List.mem_cons]
    rintro (hcase | hcase)
    · have : old.id ∈ acts.map (fun x => x.id) :=
        List.mem_map_of_mem _ (List.mem_of_mem_getLast? hold)
      rw [hcase] at this
      exact hfresh this
    · rw [List.map_take] at hcase
      have hnd99 : old.id ∉ (acts.map (fun x => x.id)).take ((acts.map (fun x => x.id)).length - 1) := by
        refine nodup_getLast?_not_mem_take _ hnd old.id ?_
        rw [List.getLast?_map, hold]
        rfl
      rw [List.length_map, hlen] at hnd99
      exact hnd99 hcase

/-- C7 witness: the theorem applied to a concrete log of 100 activities
with distinct ids. -/
theorem activity_log_bounded_witness :
    addActivityA wArgs acts100 = mkActivity wArgs :: acts100.take 99 ∧
    wOld.id ∉ (addActivityA wArgs acts100).map (fun x => x.id) ∧
    (runAddActivities [wArgs] []).length ≤ 100 :=
  ⟨(activity_log_bounded.2 acts100 wArgs (by decide)).1,
   (activity_log_bounded.2 acts100 wArgs (by decide)).2.2 wOld (by decide) (by decide) (by decide),
   activity_log_bounded.1 [wArgs]⟩

/-- C8: the notification feed never exceeds 50 entries over any sequence of
`addNotification` calls starting from the initial state; the new
notification is prepended at index 0; appending to a feed of 50 truncates
to the newest 50, dropping the oldest. -/
theorem notification_feed_bounded :
    (∀ ns : List Notification, (foldNotifications ns).notifications.length ≤ 50) ∧
    (∀ (s : NMState) (n : Notification),
      (addNotification n s).notifications.head? = some n) ∧
    (∀ (s : NMState) (n : Notification), s.notifications.length = 50 →
      (addNotification n s).notifications = n :: s.notifications.take 49) := by
  refine ⟨?_, ?_, ?_⟩
  · intro ns
    exact foldAddNotification_le ns initNM (by simp [initNM])
  · intro s n
    rw [addNotification_notifications_eq]
    split
    · rw [show (50 : Nat) = 49 + 1 from rfl, List.take_succ_cons]
      rfl
    · rfl
  · intro s n hlen
    rw [addNotification_notifications_eq]
    rw [if_pos (by simp only [List.length_cons, hlen]; omega)]
    rw [show (50 : Nat) = 49 + 1 from rfl, List.take_succ_cons]

/-- C8 witness: the theorem applied to a concrete feed of 50
notifications. -/
theorem notification_feed_bounded_witness :
    (addNotification wNotif s50).notifications = wNotif :: s50.notifications.take 49 ∧
    (foldNotifications [wNotif]).notifications.length ≤ 50 ∧
    (addNotification wNotif s50).notifications.head? = some wNotif :=
  ⟨notification_feed_bounded.2.2 s50 wNotif (by decide),
   notification_feed_bounded.1 [wNotif],
   notification_feed_bounded.2.1 s50 wNotif⟩

/-- C6: (i) every state reachable through the scheduler entry points
satisfies the bookkeeping invariant (unique task keys, live timers exactly
the recorded handles); (ii) hence at most one pending map entry — and so at
most one pending timer — exists per task identifier; (iii) a successful
re-schedule for an identifier with an existing pending reminder installs
the new reminder under that identifier and the replaced reminder's timer
is no longer live. -/
theorem reminder_scheduler_at_most_one :
    (∀ ops : List NMOp, SchedInv (runNMOps ops)) ∧
    (∀ (ops : List NMOp) (id : String),
      ((runNMOps ops).reminders.filter (fun r => r.taskId == id)).length ≤ 1) ∧
    (∀ (s : NMState) (now : Int) (id title : String) (dt : Int)
       (r : ActiveReminder), SchedInv s → findReminder id s = some r →
      (scheduleReminder now id title dt s).1 = true →
      findReminder id (scheduleReminder now id title dt s).2 =
        some { taskId := id, taskTitle := title, datetime := dt,
               timeoutId := s.nextTimer } ∧
      r.timeoutId ∉ (scheduleReminder now id title dt s).2.timers) := by
  refine ⟨schedInv_run, ?_, ?_⟩
  · intro ops id
    exact length_filter_key_le_one _ id (schedInv_run ops).1
  · intro s now id title dt r h1 h2 h3
    exact schedule_replaces s now id title dt r h1 h2 h3

/-- C6 witness: the invariant after a concrete call sequence, and a
concrete successful re-schedule replacing the pending reminder of `t1`. -/
theorem reminder_scheduler_at_most_one_witness :
    SchedInv (runNMOps wOps) ∧
    ((runNMOps wOps).reminders.filter (fun r => r.taskId == "a")).length ≤ 1 ∧
    findReminder "t1" (scheduleReminder 0 "t1" "X" 50 nmW).2 =
      some { taskId := "t1", taskTitle := "X", datetime := 50,
             timeoutId := nmW.nextTimer } ∧
    ({ taskId := "t1", taskTitle := "T", datetime := 100,
       timeoutId := 0 } : ActiveReminder).timeoutId ∉
      (scheduleReminder 0 "t1" "X" 50 nmW).2.timers :=
  ⟨reminder_scheduler_at_most_one.1 wOps,
   reminder_scheduler_at_most_one.2.1 wOps "a",
   (reminder_scheduler_at_most_one.2.2 nmW 0 "t1" "X" 50
     { taskId := "t1", taskTitle := "T", datetime := 100, timeoutId := 0 }
     (by decide) (by decide) (by decide)).1,
   (reminder_scheduler_at_most_one.2.2 nmW 0 "t1" "X" 50
     { taskId := "t1", taskTitle := "T", datetime := 100, timeoutId := 0 }
     (by decide) (by decide) (by decide)).2⟩

/-- C2 counterexample: exporting the task titled `Say "hi"` renders the
title field as `"Say ""hi"""`, but importing that very row back yields the
title `Say ""hi""` — the import only strips the outer quotes and never
collapses the doubled internal quotes — so the round trip does not restore
the original title. -/
theorem csv_roundtrip_counterexample :
    parseCSVImport cxParse cxUids 0 (exportToCSV cxFmt [cxTask]) =
      Except.ok [cxImported] ∧
    cxImported.title ≠ cxTask.title ∧
    cxTask.title = "Say \"hi\"" ∧ cxImported.title = "Say \"\"hi\"\"" := by
  refine ⟨rfl, ?_, rfl, rfl⟩
  decide

/-- C2 (amended): for every task titled `Say "hi"`, CSV export renders the
title field as `"Say ""hi"""` (double-quoted, internal quotes doubled);
re-importing the exported row of the concrete C2 task yields the title
`Say ""hi""`, not the original — the outer quotes are stripped but the
internal doubled quotes survive. -/
theorem csv_title_field_and_reimport :
    (∀ (fmtDate : Int → String) (t : Task), t.title = "Say \"hi\"" →
      (taskCSVFields fmtDate t).getD 1 "" = "\"Say \"\"hi\"\"\"") ∧
    parseCSVImport cxParse cxUids 0 (exportToCSV cxFmt [cxTask]) =
      Except.ok [cxImported] ∧
    cxImported.title = "Say \"\"hi\"\"" := by
  refine ⟨?_, rfl, rfl⟩
  intro fmtDate t ht
  simp only [taskCSVFields, ht]
  rfl

/-- C2 witness: the export half of the amended theorem applied to the
concrete task. -/
theorem csv_title_field_and_reimport_witness :
    (taskCSVFields cxFmt cxTask).getD 1 "" = "\"Say \"\"hi\"\"\"" :=
  csv_title_field_and_reimport.1 cxFmt cxTask rfl

/-- C9: toggling a task carrying a reminder: (i) completing it cancels the
pending reminder (no map entry for its id remains and a previously pending
timer is dead); (ii) un-completing it re-schedules the reminder when the
target instant is still in the future; (iii) un-completing it with a
past-due target leaves the notification manager entirely untouched (no
re-schedule). -/
theorem toggleTask_reminder_cases
    (now : Int) (aid : String) (t : Task) (r : TaskReminder)
    (pre post : List Task) (acts : List Activity) (nm : NMState)
    (hpre : ∀ u ∈ pre, u.id ≠ t.id) (hpost : ∀ u ∈ post, u.id ≠ t.id)
    (hrem : t.reminder = some r) (hinv : SchedInv nm) :
    (t.done = false →
      findReminder t.id (toggleTask now aid t.id ⟨pre ++ t :: post, acts⟩ nm).2 = none ∧
      ∀ r0, findReminder t.id nm = some r0 →
        r0.timeoutId ∉ (toggleTask now aid t.id ⟨pre ++ t :: post, acts⟩ nm).2.timers) ∧
    (t.done = true → now < r.datetime →
      findReminder t.id (toggleTask now aid t.id ⟨pre ++ t :: post, acts⟩ nm).2 =
        some { taskId := t.id, taskTitle := t.title, datetime := r.datetime,
               timeoutId := nm.nextTimer }) ∧
    (t.done = true → ¬(now < r.datetime) →
      (toggleTask now aid t.id ⟨pre ++ t :: post, acts⟩ nm).2 = nm) := by
  have htid : (t.id == t.id) = true := by simp
  have hmaster : (toggleTask now aid t.id ⟨pre ++ t :: post, acts⟩ nm).2 =
      (if !t.done then
         createTaskCompletedNotification now t.title
           (if t.reminder.isSome then cancelReminder t.id nm else nm)
       else
         match t.reminder with
         | some r1 =>
           if now < r1.datetime then (scheduleReminder now t.id t.title r1.datetime nm).2
           else nm
         | none => nm) := by
    show (toggleGo now aid t.id (pre ++ t :: post) acts nm).2.2 = _
    rw [toggleGo_append_skip now aid t.id pre hpre (t :: post) acts nm]
    show (toggleGo now aid t.id (t :: post) acts nm).2.2 = _
    simp only [toggleGo, if_pos htid]
    rw [toggleGo_skip_all now aid t.id post _ _ hpost]
  refine ⟨?_, ?_, ?_⟩
  · intro hdone
    have hnm1 : (if !t.done then
         createTaskCompletedNotification now t.title
           (if t.reminder.isSome then cancelReminder t.id nm else nm)
       else
         match t.reminder with
         | some r1 =>
           if now < r1.datetime then (scheduleReminder now t.id t.title r1.datetime nm).2
           else nm
         | none => nm) =
        createTaskCompletedNotification now t.title (cancelReminder t.id nm) := by
      simp [hdone, hrem]
    constructor
    · rw [hmaster, hnm1, findReminder_createTCN]
      exact findReminder_cancel_self t.id nm
    · intro r0 hr0
      rw [hmaster, hnm1, createTCN_timers, cancelReminder_of_find t.id nm r0 hr0]
      exact List.Nodup.not_mem_erase hinv.2.2.1
  · intro hdone hfut
    have hnm1 : (if !t.done then
         createTaskCompletedNotification now t.title
           (if t.reminder.isSome then cancelReminder t.id nm else nm)
       else
         match t.reminder with
         | some r1 =>
           if now < r1.datetime then (scheduleReminder now t.id t.title r1.datetime nm).2
           else nm
         | none => nm) =
        (scheduleReminder now t.id t.title r.datetime nm).2 := by
      simp [hdone, hrem, hfut]
    rw [hmaster, hnm1, scheduleReminder_pos now t.id t.title r.datetime nm (by omega)]
    show findReminder t.id
      { cancelReminder t.id nm with
        timers := (cancelReminder t.id nm).nextTimer :: (cancelReminder t.id nm).timers,
        nextTimer := (cancelReminder t.id nm).nextTimer + 1,
        reminders :=
          { taskId := t.id, taskTitle := t.title, datetime := r.datetime,
            timeoutId := (cancelReminder t.id nm).nextTimer } ::
            (cancelReminder t.id nm).reminders,
        toasts := "Recordatorio programado" :: (cancelReminder t.id nm).toasts } = _
    unfold findReminder
    rw [List.find?_cons_of_pos _ (by simp)]
    rw [cancelReminder_nextTimer]
  · intro hdone hpast
    have hnm1 : (if !t.done then
         createTaskCompletedNotification now t.title
           (if t.reminder.isSome then cancelReminder t.id nm else nm)
       else
         match t.reminder with
         | some r1 =>
           if now < r1.datetime then (scheduleReminder now t.id t.title r1.datetime nm).2
           else nm
         | none => nm) = nm := by
      simp [hdone, hrem, hpast]
    rw [hmaster, hnm1]

/-- C9 witness: the three cases at concrete inputs — completing `taskW0`
cancels its pending reminder in `nmW`, un-completing `taskW1` at `now = 50`
re-installs the reminder at instant 100, un-completing at `now = 200`
leaves the manager unchanged. -/
theorem toggleTask_reminder_cases_witness :
    findReminder taskW0.id (toggleTask 50 "a1" taskW0.id ⟨[] ++ taskW0 :: [], []⟩ nmW).2 = none ∧
    ({ taskId := "t1", taskTitle := "T", datetime := 100,
       timeoutId := 0 } : ActiveReminder).timeoutId ∉
      (toggleTask 50 "a1" taskW0.id ⟨[] ++ taskW0 :: [], []⟩ nmW).2.timers ∧
    findReminder taskW1.id (toggleTask 50 "a1" taskW1.id ⟨[] ++ taskW1 :: [], []⟩ nmW).2 =
      some { taskId := taskW1.id, taskTitle := taskW1.title, datetime := 100,
             timeoutId := nmW.nextTimer } ∧
    (toggleTask 200 "a1" taskW1.id ⟨[] ++ taskW1 :: [], []⟩ nmW).2 = nmW :=
  ⟨(toggleTask_reminder_cases 50 "a1" taskW0 { datetime := 100, notified := false }
      [] [] [] nmW (by simp) (by simp) rfl (by decide)).1 rfl |>.1,
   (toggleTask_reminder_cases 50 "a1" taskW0 { datetime := 100, notified := false }
      [] [] [] nmW (by simp) (by simp) rfl (by decide)).1 rfl |>.2
      { taskId := "t1", taskTitle := "T", datetime := 100, timeoutId := 0 } (by decide),
   (toggleTask_reminder_cases 50 "a1" taskW1 { datetime := 100, notified := false }
      [] [] [] nmW (by simp) (by simp) rfl (by decide)).2.1 rfl (by decide),
   (toggleTask_reminder_cases 200 "a1" taskW1 { datetime := 100, notified := false }
      [] [] [] nmW (by simp) (by simp) rfl (by decide)).2.2 rfl (by decide)⟩

/-- C3 counterexample: importing a CSV row whose state column is `Activa`
but whose completion column is non-empty produces a task with
`done = false` and a defined `completedAt`, violating the invariant. -/
theorem importFromCSV_invariant_counterexample :
    (applyCSVImport invParse cxUids "a1" 0 invCSV
      { tasks := [], activities := [] }).tasks = [invTask] ∧
    invTask.done = false ∧
    invTask.completedAt.isSome = true ∧
    ¬ TaskInv invTask := by
  refine ⟨rfl, rfl, rfl, ?_⟩
  decide

/-- C3 (amended): the completion-instant-iff-completion-flag invariant is
preserved by every sequence of `addTask`, `toggleTask` and `editTaskTitle`
operations; the CSV import path is excluded, since it copies the state and
completion columns independently and can produce violating tasks. -/
theorem task_invariant_core_ops (fmtDate : Int → String) (ops : List TOp)
    (s : AppState) (nm : NMState) (hinv : ∀ t ∈ s.tasks, TaskInv t) :
    ∀ t ∈ (runTOps fmtDate ops (s, nm)).1.tasks, TaskInv t :=
  runTOps_tasks_inv fmtDate ops (s, nm) hinv

/-- C3 witness: the invariant of the task produced by toggling `t1` in a
concrete one-task repository. -/
theorem task_invariant_core_ops_witness :
    TaskInv { id := "t1", title := "T", done := true, createdAt := 0,
              completedAt := some 5, tags := [], reminder := none } :=
  task_invariant_core_ops cxFmt [TOp.toggle 5 "a1" "t1"] wApp initNM (by decide)
    { id := "t1", title := "T", done := true, createdAt := 0,
      completedAt := some 5, tags := [], reminder := none } (by decide)

/-- C10: toggling an identifier that matches no task leaves every task
unchanged, appends no activity entry, and does not touch the notification
manager. -/
theorem toggleTask_unknown_id (now : Int) (aid id : String) (s : AppState)
    (nm : NMState) (h : ∀ t ∈ s.tasks, t.id ≠ id) :
    toggleTask now aid id s nm = (s, nm) := by
  unfold toggleTask
  rw [toggleGo_skip_all now aid id s.tasks s.activities nm h]

/-- C10 witness: toggling an absent id on a one-task repository. -/
theorem toggleTask_unknown_id_witness :
    toggleTask 3 "a0" "nope" wApp initNM = (wApp, initNM) :=
  toggleTask_unknown_id 3 "a0" "nope" wApp initNM (by decide)

end Taller
